import Mathlib

/-!
Verification development for the offset-reconciliation and parallel-completion
engine of the scraper repository.

The JavaScript source is shallowly embedded:

* a JS `Set` of numbers is modelled as an insertion-ordered duplicate-free
  `List Nat` (`jsAdd` appends only when absent, `jsDelete` removes,
  membership is `List.contains`), matching JS `Set` iteration order;
* a JS `Map` with numeric keys is modelled as an insertion-ordered
  association list `List (Nat × α)` (`jmSet` replaces in place or appends,
  `jmGet` returns the first binding), matching JS `Map` semantics;
* the `while` loops of the source are modelled with an explicit fuel that
  is a proven upper bound on the number of iterations the JS loop can
  perform, so every definition is executable by kernel reduction.
-/

/-! ## Configuration constants (CONFIG object in the source) -/

def GAMES_PER_REQUEST : Nat := 39

def MAX_CONCURRENT_REQUESTS : Nat := 3

def MAX_RETRIES : Nat := 20

def MAX_EMPTY_ATTEMPTS : Nat := 10

def SKIP_MISSING_GAMES : Bool := true

/-! ## JS `Set` model: insertion-ordered list without duplicates -/

/-- JS `Set.add`: appends the element unless it is already present. -/
def jsAdd (s : List Nat) (x : Nat) : List Nat :=
  if s.contains x then s else s ++ [x]

/-- JS `Set.delete`: removes the element. -/
def jsDelete (s : List Nat) (x : Nat) : List Nat :=
  s.filter (fun a => a ≠ x)

/-! ## JS `Map` model: insertion-ordered association list -/

/-- JS `Map.set`: replaces the binding in place if the key is present,
otherwise appends a new binding. -/
def jmSet {α : Type} (m : List (Nat × α)) (k : Nat) (v : α) : List (Nat × α) :=
  if (m.map Prod.fst).contains k then
    m.map (fun p => if p.1 = k then (k, v) else p)
  else
    m ++ [(k, v)]

/-- JS `Map.get`: the first binding for the key, if any. -/
def jmGet {α : Type} (m : List (Nat × α)) (k : Nat) : Option α :=
  (m.find? (fun p => p.1 == k)).map Prod.snd

/-- The idiom `map.get(k) || 0` from the source. -/
def jmGetD (m : List (Nat × Nat)) (k : Nat) : Nat :=
  (jmGet m k).getD 0

/-! ## OffsetTracker (class OffsetTracker in the source) -/

structure OffsetTracker where
  completed : List Nat
  failed : List Nat
  inProgress : List Nat
  retryCount : List (Nat × Nat)
deriving Repr, DecidableEq

/-- `new OffsetTracker()`. -/
def emptyTracker : OffsetTracker := ⟨[], [], [], []⟩

/-- `markInProgress(offset)`. -/
def markInProgress (t : OffsetTracker) (offset : Nat) : OffsetTracker :=
  { t with inProgress := jsAdd t.inProgress offset }

/-- `markCompleted(offset, gameCount)`; the count is only logged by the source. -/
def markCompleted (t : OffsetTracker) (offset : Nat) (gameCount : Nat) : OffsetTracker :=
  { t with inProgress := jsDelete t.inProgress offset,
           completed := jsAdd t.completed offset }

/-- `markFailed(offset)`: bumps the retry counter, adds the offset to the
failed set once the counter reaches `MAX_RETRIES`, and returns whether the
offset may still be retried. -/
def markFailed (t : OffsetTracker) (offset : Nat) : OffsetTracker × Bool :=
  let retries := jmGetD t.retryCount offset + 1
  let t1 : OffsetTracker :=
    { t with inProgress := jsDelete t.inProgress offset,
             retryCount := jmSet t.retryCount offset retries }
  if MAX_RETRIES ≤ retries then
    ({ t1 with failed := jsAdd t1.failed offset }, false)
  else
    (t1, true)

/-- `isCompleted(offset)`. -/
def isCompleted (t : OffsetTracker) (offset : Nat) : Bool :=
  t.completed.contains offset

/-- `isFailed(offset)`. -/
def isFailed (t : OffsetTracker) (offset : Nat) : Bool :=
  t.failed.contains offset

/-- `isInProgress(offset)`. -/
def isInProgress (t : OffsetTracker) (offset : Nat) : Bool :=
  t.inProgress.contains offset

/-- `canFetch(offset)`. -/
def canFetch (t : OffsetTracker) (offset : Nat) : Bool :=
  !isCompleted t offset && !isFailed t offset && !isInProgress t offset

/-- `getNextSequentialOffset()` scans multiples of `GAMES_PER_REQUEST` from 0
for the first offset that is not completed.  The scan is modelled with fuel
`t.completed.length + 1`: each successful `isCompleted` test consumes a
distinct member of the finite completed set, so the fuel can never run out
before a non-completed offset is reached. -/
def gnsAux (t : OffsetTracker) : Nat → Nat → Nat
  | 0, offset => offset
  | fuel + 1, offset =>
    if isCompleted t offset then gnsAux t fuel (offset + GAMES_PER_REQUEST) else offset

def getNextSequentialOffset (t : OffsetTracker) : Nat :=
  gnsAux t (t.completed.length + 1) 0

/-- The first loop of `getNextOffsets`: iterate over (a snapshot of) the
failed set in insertion order; an offset with a retry count below
`MAX_RETRIES` that also satisfies `canFetch` is removed from the failed set
and pushed onto the result.  (JS `for...of` over a `Set` visits elements in
insertion order; the loop only ever deletes the element currently visited,
which does not disturb the iteration of the remaining elements.) -/
def getNextOffsetsAux (t : OffsetTracker) (pending : List Nat) (acc : List Nat)
    (maxOffsets : Nat) : OffsetTracker × List Nat :=
  match pending with
  | [] => (t, acc)
  | o :: rest =>
    if maxOffsets ≤ acc.length then (t, acc)
    else if jmGetD t.retryCount o < MAX_RETRIES && canFetch t o then
      getNextOffsetsAux { t with failed := jsDelete t.failed o } rest (acc ++ [o]) maxOffsets
    else
      getNextOffsetsAux t rest acc maxOffsets

/-- The second loop of `getNextOffsets`:
`while (offsets.length < maxOffsets && offset < totalGames)`, stepping the
offset by `GAMES_PER_REQUEST` each iteration.  The fuel `totalGames - offset`
is an exact upper bound on the number of iterations (each iteration
increases the offset by `GAMES_PER_REQUEST ≥ 1`), and when the fuel is 0 the
guard `offset < totalGames` is false, so the fuelled recursion agrees with
the JS `while` loop. -/
def seqLoop (t : OffsetTracker) (totalGames maxOffsets : Nat) :
    Nat → List Nat → Nat → List Nat
  | 0, acc, _ => acc
  | fuel + 1, acc, offset =>
    if acc.length < maxOffsets && offset < totalGames then
      seqLoop t totalGames maxOffsets fuel
        (if canFetch t offset then acc ++ [offset] else acc)
        (offset + GAMES_PER_REQUEST)
    else acc

/-- `getNextOffsets(currentGames, totalGames, maxOffsets)`.  The source
mutates the tracker (deleting retried offsets from the failed set), so the
model returns the updated tracker together with the chosen offsets.
`currentGames` is a parameter of the source that its body never reads. -/
def getNextOffsets (t : OffsetTracker) (currentGames totalGames maxOffsets : Nat) :
    OffsetTracker × List Nat :=
  let p := getNextOffsetsAux t t.failed [] maxOffsets
  let start := getNextSequentialOffset p.1
  (p.1, seqLoop p.1 totalGames maxOffsets (totalGames - start) p.2 start)

/-! ## Game records and parse results (data_parser.js) -/

/-- A group association attached to a game (field `groupGames` of a parsed
game in `extractDataFromJson`). -/
structure GroupRef where
  groupId : Option String
  groupSlug : Option String
  groupTranslation : Option String
  groupType : Option String
deriving Repr, DecidableEq

/-- A parsed game record (`extractDataFromJson` / `parseWithRegex`). -/
structure Game where
  id : String
  name : String
  slug : String
  thumbnailUrl : String
  thumbnailBlurHash : Option String
  isBlocked : Bool
  isWidgetEnabled : Bool
  playerCount : Nat
  groupGames : List GroupRef
deriving Repr, DecidableEq

/-- Provider metadata extracted by the parsing routines. -/
structure ProviderMeta where
  providerId : String
  providerSlug : String
  providerName : String
  providerIcon : String
  providerType : String
  totalGameCount : Nat
  fetchedGamesCount : Nat
deriving Repr, DecidableEq

/-- The object shape every branch of `parseStakeResponse` returns:
`{success, error, metadata, games, remainingGames}`. -/
structure ParseResult where
  success : Bool
  error : Option String
  metadata : Option ProviderMeta
  games : List Game
  remainingGames : Nat
deriving Repr, DecidableEq

/-- JS `String.prototype.trim`: drop leading and trailing whitespace. -/
def trimChars (l : List Char) : List Char :=
  ((l.dropWhile Char.isWhitespace).reverse.dropWhile Char.isWhitespace).reverse

def jsTrim (s : String) : String := String.mk (trimChars s.data)

/-- Whether the second character list starts with the first. -/
def startsWithChars : List Char → List Char → Bool
  | [], _ => true
  | _ :: _, [] => false
  | c :: cs, d :: ds => c == d && startsWithChars cs ds

/-- Whether the second character list contains the first somewhere. -/
def hasSubChars (sub : List Char) : List Char → Bool
  | [] => sub.isEmpty
  | c :: rest => startsWithChars sub (c :: rest) || hasSubChars sub rest

/-- JS `String.prototype.includes`, over the character lists. -/
def jsIncludes (s sub : String) : Bool :=
  hasSubChars sub.data s.data

/-- The two downstream extraction routines reached by `parseStakeResponse`
after the initial classification: `parseWithRegex` (HTML-wrapped input) and
the direct `JSON.parse` + `extractDataFromJson` path (whose exceptions the
surrounding `try` turns into a failure result).  The claims settled here
depend only on the classification performed before either routine runs, so
both are kept as parameters and every theorem quantifies over them. -/
structure DownstreamParsers where
  withRegex : String → ParseResult
  directJson : String → ParseResult

/-- The failure object the invalid-response guard of `parseStakeResponse`
returns (its `error` string interpolates the trimmed input in the source;
the claims only concern the other fields). -/
def invalidResultLiteral : ParseResult :=
  { success := false
    error := some "API returned invalid response"
    metadata := none
    games := []
    remainingGames := 0 }

/-- `parseStakeResponse(responseData)`: reject inputs that are the literal
string "error" or whose trimmed length is below 50 before attempting any
extraction; otherwise dispatch on the HTML-wrapper markers. -/
def parseStakeResponse (ps : DownstreamParsers) (responseData : String) : ParseResult :=
  let trimmedResponse := jsTrim responseData
  if trimmedResponse = "error" ∨ trimmedResponse.length < 50 then
    invalidResultLiteral
  else if jsIncludes responseData "<div id=\"resultContainer\">" ||
      jsIncludes responseData "<div>" then
    ps.withRegex responseData
  else
    ps.directJson responseData

/-! ## Per-offset request handling (completeProviderParallel) -/

/-- How one `executeSingleRequest` promise settles, as seen by the per-offset
lambda in `completeProviderParallel`:

* `resolved success games` — the spawned fetcher exited with code 0, a
  response file was found and read, and `parseStakeResponse` produced
  `{success, games}` (a parse failure resolves with `success = false` and an
  empty games array);
* `rejected` — the fetcher exited non-zero, timed out, no response file was
  found, or reading/parsing threw. -/
inductive RequestOutcome where
  | resolved (success : Bool) (games : List Game)
  | rejected
deriving Repr, DecidableEq

/-- The value the per-offset lambda returns: `{offset, games, success}`. -/
structure OffsetResult where
  offset : Nat
  games : List Game
  success : Bool
deriving Repr, DecidableEq

/-- The per-offset result handling of `completeProviderParallel`: on a
resolved result with `success && games.length > 0` the offset is completed;
on any other resolved result the empty-response counter is bumped and (with
`SKIP_MISSING_GAMES` set) the offset is completed with 0 games; on a
rejected promise the offset is marked failed.  Returns the updated tracker,
the updated empty-response counter, and the lambda's result value. -/
def handleRequestResult (t : OffsetTracker) (emptyResponseCount offset : Nat) :
    RequestOutcome → OffsetTracker × Nat × OffsetResult
  | .resolved success games =>
    if success && !games.isEmpty then
      (markCompleted t offset games.length, emptyResponseCount, ⟨offset, games, true⟩)
    else if SKIP_MISSING_GAMES then
      (markCompleted t offset 0, emptyResponseCount + 1, ⟨offset, [], true⟩)
    else
      ((markFailed t offset).1, emptyResponseCount + 1, ⟨offset, [], false⟩)
  | .rejected => ((markFailed t offset).1, emptyResponseCount, ⟨offset, [], false⟩)

/-- The per-request limit computed by the driver:
`Math.min(CONFIG.GAMES_PER_REQUEST, provider.totalGames - offset)`. -/
def requestLimit (totalGames offset : Nat) : Nat :=
  min GAMES_PER_REQUEST (totalGames - offset)

/-! ## Merging results into the offset-to-records map -/

/-- The `results.forEach` merge step of `completeProviderParallel`: every
fulfilled result with `success && games.length > 0` replaces the games map
entry for its offset (`gamesByOffset.set(offset, requestResult.games)`).
All per-offset lambdas catch their own errors, so every settled promise is
fulfilled and the list holds the lambdas' result values. -/
def mergeResults (m : List (Nat × List Game)) (results : List OffsetResult) :
    List (Nat × List Game) :=
  results.foldl
    (fun acc r => if r.success && !r.games.isEmpty then jmSet acc r.offset r.games else acc)
    m

/-! ## Driver loop decision (completeProviderParallel main while loop) -/

/-- `Array.from(tracker.failed).some(o => retries(o) < MAX_RETRIES)` from the
empty-batch branch of the driver loop. -/
def hasRetryableFailures (t : OffsetTracker) : Bool :=
  t.failed.any (fun o => jmGetD t.retryCount o < MAX_RETRIES)

/-- What one arrival at the top of the driver's `while` loop decides to do. -/
inductive DriverDecision where
  /-- The `while` guard is false: the loop is over (target reached or the
  empty-response budget is exhausted). -/
  | finished
  /-- `tracker.failed.size >= 3`: too many permanent failures, the provider
  run is aborted (`break`). -/
  | abortTooManyFailures
  /-- Empty batch but some failed offset is still retryable: sleep and loop. -/
  | waitRetryable
  /-- Empty batch, nothing retryable, requests still in flight: sleep and loop. -/
  | waitForInFlight
  /-- Empty batch and nothing can ever be fetched again: end the collection. -/
  | stopNoMore
  /-- Issue parallel fetches for this batch of offsets. -/
  | fetchBatch (t1 : OffsetTracker) (offsets : List Nat)
deriving Repr, DecidableEq

/-- The decision logic at the top of each driver loop iteration, translated
from `completeProviderParallel`: first the `while` guard
(`totalExistingGames < provider.totalGames && emptyResponseCount <
CONFIG.MAX_EMPTY_ATTEMPTS`), then the failure-budget check
(`tracker.failed.size >= 3` causes `break`), then the batch request. -/
def loopDecision (t : OffsetTracker) (totalExistingGames totalGames emptyResponseCount : Nat) :
    DriverDecision :=
  if totalExistingGames < totalGames ∧ emptyResponseCount < MAX_EMPTY_ATTEMPTS then
    if 3 ≤ t.failed.length then
      .abortTooManyFailures
    else
      let p := getNextOffsets t totalExistingGames totalGames MAX_CONCURRENT_REQUESTS
      if p.2.isEmpty then
        if hasRetryableFailures p.1 then .waitRetryable
        else if 0 < p.1.inProgress.length then .waitForInFlight
        else .stopNoMore
      else .fetchBatch p.1 p.2
  else .finished

/-! ## Checkpoint save and restore -/

/-- The provider descriptor fields `saveProviderData` and
`completeProviderParallel` read. -/
structure ProviderInfo where
  slug : String
  name : String
  totalGames : Nat
  outputDir : String
deriving Repr, DecidableEq

/-- Insertion sort for `Array.from(set).sort((a, b) => a - b)`. -/
def insertSorted (x : Nat) : List Nat → List Nat
  | [] => [x]
  | y :: ys => if x ≤ y then x :: y :: ys else y :: insertSorted x ys

def sortNat (l : List Nat) : List Nat := l.foldr insertSorted []

/-- Ascending-by-key insertion sort for association lists; JS objects
enumerate integer-like keys in ascending numeric order, so
`Object.entries(Object.fromEntries(map))` yields the map's bindings sorted
by key. -/
def insertByKey {α : Type} (p : Nat × α) : List (Nat × α) → List (Nat × α)
  | [] => [p]
  | q :: qs => if p.1 ≤ q.1 then p :: q :: qs else q :: insertByKey p qs

def sortByKey {α : Type} (l : List (Nat × α)) : List (Nat × α) :=
  l.foldr insertByKey []

/-- `getStatus()`: the three sets as ascending arrays. -/
def getStatus (t : OffsetTracker) : List Nat × List Nat × List Nat :=
  (sortNat t.completed, sortNat t.failed, sortNat t.inProgress)

/-- `Math.max(...status.completed, -1)`. -/
def lastSuccessfulOffset (t : OffsetTracker) : Int :=
  t.completed.foldl (fun m o => max m (o : Int)) (-1)

/-- The checkpoint object written by `saveProviderData` (bookkeeping string
fields such as timestamps and file paths are irrelevant to the claims and
omitted). -/
structure Checkpoint where
  provider_slug : String
  provider_name : String
  status : String
  total_games : Nat
  games_fetched : Nat
  is_complete : Bool
  needs_pagination : Bool
  completed_offsets : List Nat
  failed_offsets : List Nat
  retry_counts : List (Nat × Nat)
  last_successful_offset : Int
deriving Repr, DecidableEq

/-- The checkpoint `saveProviderData(provider, allGames, tracker)` writes. -/
def saveCheckpoint (provider : ProviderInfo) (allGames : List Game)
    (t : OffsetTracker) : Checkpoint :=
  { provider_slug := provider.slug
    provider_name := provider.name
    status := if provider.totalGames ≤ allGames.length then "completed" else "in_progress"
    total_games := provider.totalGames
    games_fetched := allGames.length
    is_complete := provider.totalGames ≤ allGames.length
    needs_pagination := allGames.length < provider.totalGames
    completed_offsets := (getStatus t).1
    failed_offsets := (getStatus t).2.1
    retry_counts := sortByKey t.retryCount
    last_successful_offset := lastSuccessfulOffset t }

/-- The games array `saveProviderData` writes to the games data file: the
offset-to-records map flattened in ascending offset order. -/
def gamesMapToOrderedList (m : List (Nat × List Game)) : List Game :=
  (sortNat (m.map Prod.fst)).flatMap (fun o => (jmGet m o).getD [])

/-- The offsets `completeProviderParallel` re-creates when it reloads the
games data file at the start of a run:
`for (let i = 0; i < existingGames.length; i += CONFIG.GAMES_PER_REQUEST)`.
Fuel `n` bounds the iteration count exactly as in `seqLoop`. -/
def chunkAux (n : Nat) : Nat → Nat → List Nat
  | 0, _ => []
  | fuel + 1, i =>
    if i < n then i :: chunkAux n fuel (i + GAMES_PER_REQUEST) else []

def chunkOffsets (n : Nat) : List Nat := chunkAux n n 0

/-- The tracker `completeProviderParallel` builds at the start of a run:
a fresh tracker, the checkpoint's `failed_offsets` added to the failed set,
the checkpoint's `retry_counts` replayed into the retry map, and then every
offset of the re-chunked games file marked completed. -/
def restoreTracker (cp : Checkpoint) (existingGames : List Game) : OffsetTracker :=
  let t0 : OffsetTracker :=
    { emptyTracker with failed := cp.failed_offsets.foldl jsAdd [] }
  let t1 : OffsetTracker :=
    { t0 with retryCount := cp.retry_counts.foldl (fun m p => jmSet m p.1 p.2) [] }
  (chunkOffsets existingGames.length).foldl (fun t o => markCompleted t o 0) t1

/-! ## The exactly-one-state invariant and guarded reachability -/

/-- The three tracker sets are pairwise disjoint, so every offset is in
exactly one of the states Pending (member of no set), InProgress, Completed,
Failed. -/
def trackerDisjoint (t : OffsetTracker) : Prop :=
  (∀ o : Nat, o ∈ t.completed → o ∉ t.failed) ∧
  (∀ o : Nat, o ∈ t.completed → o ∉ t.inProgress) ∧
  (∀ o : Nat, o ∈ t.failed → o ∉ t.inProgress)

/-- Tracker states reachable under the discipline the driver's fetch loop
follows: `markInProgress` is applied only to offsets that satisfy
`canFetch` (the driver marks exactly the offsets `getNextOffsets`
returned), and `markCompleted` / `markFailed` only to offsets currently in
progress (the driver settles exactly the offsets it marked in progress). -/
inductive GuardedReachable : OffsetTracker → Prop where
  | init : GuardedReachable emptyTracker
  | stepInProgress {t : OffsetTracker} {o : Nat} :
      GuardedReachable t → canFetch t o = true → GuardedReachable (markInProgress t o)
  | stepCompleted {t : OffsetTracker} {o n : Nat} :
      GuardedReachable t → o ∈ t.inProgress → GuardedReachable (markCompleted t o n)
  | stepFailed {t : OffsetTracker} {o : Nat} :
      GuardedReachable t → o ∈ t.inProgress → GuardedReachable (markFailed t o).1
  | stepNextOffsets {t : OffsetTracker} {c total m : Nat} :
      GuardedReachable t → GuardedReachable (getNextOffsets t c total m).1

/-! ## Concrete sample data used by witnesses and counterexamples -/

def sampleGame : Game := ⟨"g1", "Game One", "game-one", "", none, false, false, 0, []⟩

def sampleProvider : ProviderInfo := ⟨"test-provider", "Test Provider", 100, "out"⟩

/-- The dummy failure result used to instantiate the abstract downstream
extraction routines in witnesses. -/
def invalidResult : ParseResult := ⟨false, some "invalid", none, [], 0⟩

def noopDownstream : DownstreamParsers := ⟨fun _ => invalidResult, fun _ => invalidResult⟩

/-- A tracker whose completed offsets are not contiguous: offset 39 was
skipped while 0 and 78 completed (39 games and 22 games respectively). -/
def trackerC7 : OffsetTracker := ⟨[0, 78], [], [], []⟩

def gamesByOffsetC7 : List (Nat × List Game) :=
  [(0, List.replicate 39 sampleGame), (78, List.replicate 22 sampleGame)]

def gamesC7 : List Game := gamesMapToOrderedList gamesByOffsetC7

/-! ## Helper lemmas: the JS set model -/

theorem contains_iff_mem {l : List Nat} {a : Nat} : l.contains a = true ↔ a ∈ l :=
  List.elem_iff

theorem mem_jsAdd {s : List Nat} {a b : Nat} : a ∈ jsAdd s b ↔ a ∈ s ∨ a = b := by
  unfold jsAdd
  by_cases h : s.contains b = true
  · rw [if_pos h]
    constructor
    · exact Or.inl
    · rintro (h1 | rfl)
      · exact h1
      · exact contains_iff_mem.mp h
  · rw [if_neg h]
    simp [List.mem_append]

theorem mem_jsDelete {s : List Nat} {a b : Nat} : a ∈ jsDelete s b ↔ a ∈ s ∧ a ≠ b := by
  unfold jsDelete
  simp [List.mem_filter]

theorem mem_foldl_jsAdd {l : List Nat} :
    ∀ {s : List Nat} {a : Nat}, a ∈ l.foldl jsAdd s ↔ a ∈ s ∨ a ∈ l := by
  induction l with
  | nil => simp
  | cons b rest ih =>
    intro s a
    simp only [List.foldl_cons, ih, mem_jsAdd, List.mem_cons]
    tauto

theorem mem_insertSorted {x a : Nat} : ∀ {l : List Nat}, a ∈ insertSorted x l ↔ a = x ∨ a ∈ l := by
  intro l
  induction l with
  | nil => simp [insertSorted]
  | cons y ys ih =>
    unfold insertSorted
    by_cases h : x ≤ y
    · rw [if_pos h]
      simp
    · rw [if_neg h]
      simp only [List.mem_cons, ih]
      tauto

theorem mem_sortNat {l : List Nat} {a : Nat} : a ∈ sortNat l ↔ a ∈ l := by
  unfold sortNat
  induction l with
  | nil => simp
  | cons x xs ih =>
    simp only [List.foldr_cons, mem_insertSorted, List.mem_cons]
    rw [ih]

/-! ## Helper lemmas: the JS map model -/

theorem insertByKey_perm {α : Type} (p : Nat × α) :
    ∀ (l : List (Nat × α)), (insertByKey p l).Perm (p :: l) := by
  intro l
  induction l with
  | nil => simp [insertByKey]
  | cons q qs ih =>
    unfold insertByKey
    by_cases h : p.1 ≤ q.1
    · rw [if_pos h]
    · rw [if_neg h]
      exact (ih.cons q).trans (List.Perm.swap p q qs)

theorem sortByKey_perm {α : Type} (l : List (Nat × α)) : (sortByKey l).Perm l := by
  unfold sortByKey
  induction l with
  | nil => simp
  | cons p ps ih =>
    simp only [List.foldr_cons]
    exact (insertByKey_perm p _).trans (ih.cons p)

theorem jmGet_cons_self {α : Type} {rest : List (Nat × α)} {k : Nat} {v : α} :
    jmGet ((k, v) :: rest) k = some v := by
  simp [jmGet, List.find?]

theorem jmGet_cons_ne {α : Type} {p : Nat × α} {rest : List (Nat × α)} {k : Nat}
    (hp : p.1 ≠ k) : jmGet (p :: rest) k = jmGet rest k := by
  have hb : (p.1 == k) = false := beq_eq_false_iff_ne.mpr hp
  simp [jmGet, List.find?, hb]

theorem jmGet_append_single {α : Type} {k : Nat} {v : α} :
    ∀ {m : List (Nat × α)}, (∀ p ∈ m, p.1 ≠ k) → jmGet (m ++ [(k, v)]) k = some v := by
  intro m
  induction m with
  | nil => intro _; exact jmGet_cons_self
  | cons p rest ih =>
    intro h
    rw [List.cons_append, jmGet_cons_ne (h p (by simp))]
    exact ih (fun q hq => h q (by simp [hq]))

theorem jmGet_map_replace {α : Type} {k : Nat} {v : α} :
    ∀ {m : List (Nat × α)}, k ∈ m.map Prod.fst →
      jmGet (m.map fun p => if p.1 = k then (k, v) else p) k = some v := by
  intro m
  induction m with
  | nil => intro h; simp at h
  | cons p rest ih =>
    intro h
    by_cases hp : p.1 = k
    · rw [List.map_cons, if_pos hp]
      exact jmGet_cons_self
    · rw [List.map_cons, if_neg hp, jmGet_cons_ne hp]
      apply ih
      rw [List.map_cons] at h
      rcases List.mem_cons.mp h with h1 | h1
      · exact absurd h1.symm hp
      · exact h1

theorem jmGet_jmSet_self {α : Type} {m : List (Nat × α)} {k : Nat} {v : α} :
    jmGet (jmSet m k v) k = some v := by
  unfold jmSet
  by_cases h : (m.map Prod.fst).contains k = true
  · rw [if_pos h]
    exact jmGet_map_replace (contains_iff_mem.mp h)
  · rw [if_neg h]
    apply jmGet_append_single
    intro p hp hk
    exact h (contains_iff_mem.mpr (List.mem_map.mpr ⟨p, hp, hk⟩))

theorem jmGet_eq_none_iff {α : Type} {m : List (Nat × α)} {k : Nat} :
    jmGet m k = none ↔ ∀ p ∈ m, p.1 ≠ k := by
  unfold jmGet
  rw [Option.map_eq_none']
  rw [List.find?_eq_none]
  simp only [beq_iff_eq]

theorem jmGet_of_mem {α : Type} {k : Nat} {v : α} :
    ∀ {m : List (Nat × α)}, (m.map Prod.fst).Nodup → (k, v) ∈ m → jmGet m k = some v := by
  intro m
  induction m with
  | nil => intro _ h; simp at h
  | cons p rest ih =>
    intro hnd h
    rw [List.map_cons, List.nodup_cons] at hnd
    rcases List.mem_cons.mp h with h1 | h1
    · rw [← h1]
      exact jmGet_cons_self
    · have hp : p.1 ≠ k := by
        intro hk
        exact hnd.1 (by rw [hk]; exact List.mem_map.mpr ⟨(k, v), h1, rfl⟩)
      rw [jmGet_cons_ne hp]
      exact ih hnd.2 h1

theorem jmGet_eq_some_iff {α : Type} {m : List (Nat × α)}
    (hnd : (m.map Prod.fst).Nodup) {k : Nat} {v : α} :
    jmGet m k = some v ↔ (k, v) ∈ m := by
  constructor
  · intro h
    unfold jmGet at h
    obtain ⟨p, hp, hpv⟩ := Option.map_eq_some'.mp h
    have hk : p.1 = k := by simpa using List.find?_some hp
    have hm : p ∈ m := List.mem_of_find?_eq_some hp
    have hpkv : p = (k, v) := by
      cases p
      simp only at hk hpv
      simp [hk, hpv]
    exact hpkv ▸ hm
  · exact jmGet_of_mem hnd

theorem jmGet_perm {α : Type} {m m1 : List (Nat × α)} (hperm : m.Perm m1)
    (hnd : (m.map Prod.fst).Nodup) {k : Nat} :
    jmGet m k = jmGet m1 k := by
  have hnd1 : (m1.map Prod.fst).Nodup := ((hperm.map Prod.fst).nodup hnd)
  cases hv : jmGet m k with
  | none =>
    rw [jmGet_eq_none_iff] at hv
    symm
    rw [jmGet_eq_none_iff]
    intro p hp
    exact hv p (hperm.symm.subset hp)
  | some v =>
    rw [jmGet_eq_some_iff hnd] at hv
    symm
    rw [jmGet_eq_some_iff hnd1]
    exact hperm.subset hv

theorem foldl_jmSet_append {α : Type} {l : List (Nat × α)} :
    ∀ {acc : List (Nat × α)}, ((acc ++ l).map Prod.fst).Nodup →
      l.foldl (fun m p => jmSet m p.1 p.2) acc = acc ++ l := by
  induction l with
  | nil => simp
  | cons p rest ih =>
    intro acc hnd
    have hnotin : ¬ (acc.map Prod.fst).contains p.1 := by
      rw [contains_iff_mem]
      intro hmem
      obtain ⟨q, hq, hq1⟩ := List.mem_map.mp hmem
      have h1 : p.1 ∈ (acc.map Prod.fst) := List.mem_map.mpr ⟨q, hq, hq1⟩
      have h2 : p.1 ∈ ((p :: rest).map Prod.fst) := by simp
      have := (List.nodup_append.mp (by simpa using hnd)).2.2
      exact this h1 h2
    have hset : jmSet acc p.1 p.2 = acc ++ [p] := by
      unfold jmSet
      rw [if_neg hnotin]
    simp only [List.foldl_cons, hset]
    have : ((acc ++ [p]) ++ rest).map Prod.fst = ((acc ++ p :: rest).map Prod.fst) := by
      simp
    rw [ih (by rw [this]; exact hnd)]
    simp

/-! ## Helper lemmas: tracker operations -/

theorem canFetch_iff {t : OffsetTracker} {o : Nat} :
    canFetch t o = true ↔ o ∉ t.completed ∧ o ∉ t.failed ∧ o ∉ t.inProgress := by
  unfold canFetch isCompleted isFailed isInProgress
  simp only [Bool.and_eq_true, Bool.not_eq_true']
  constructor
  · rintro ⟨⟨h1, h2⟩, h3⟩
    refine ⟨fun hm => ?_, fun hm => ?_, fun hm => ?_⟩
    · exact absurd (contains_iff_mem.mpr hm) (Bool.eq_false_iff.mp h1)
    · exact absurd (contains_iff_mem.mpr hm) (Bool.eq_false_iff.mp h2)
    · exact absurd (contains_iff_mem.mpr hm) (Bool.eq_false_iff.mp h3)
  · rintro ⟨h1, h2, h3⟩
    refine ⟨⟨?_, ?_⟩, ?_⟩
    · exact Bool.eq_false_iff.mpr (fun hc => h1 (contains_iff_mem.mp hc))
    · exact Bool.eq_false_iff.mpr (fun hc => h2 (contains_iff_mem.mp hc))
    · exact Bool.eq_false_iff.mpr (fun hc => h3 (contains_iff_mem.mp hc))

theorem getNextOffsetsAux_id {t : OffsetTracker} :
    ∀ {pending acc : List Nat} {maxOffsets : Nat}, (∀ o ∈ pending, o ∈ t.failed) →
      getNextOffsetsAux t pending acc maxOffsets = (t, acc) := by
  intro pending
  induction pending with
  | nil => intro acc m _; rfl
  | cons o rest ih =>
    intro acc m hsub
    unfold getNextOffsetsAux
    have hfail : o ∈ t.failed := hsub o (by simp)
    have hcf : canFetch t o = false := by
      rw [Bool.eq_false_iff]
      intro hc
      exact (canFetch_iff.mp hc).2.1 hfail
    by_cases hm : m ≤ acc.length
    · simp [hm]
    · simp only [hm, if_neg, hcf, Bool.and_false, if_neg]
      simp only [Bool.false_eq_true, if_false]
      exact ih (fun x hx => hsub x (by simp [hx]))

theorem getNextOffsets_eq (t : OffsetTracker) (c total m : Nat) :
    getNextOffsets t c total m =
      (t, seqLoop t total m (total - getNextSequentialOffset t) []
        (getNextSequentialOffset t)) := by
  unfold getNextOffsets
  rw [getNextOffsetsAux_id (fun o ho => ho)]

theorem seqLoop_length {t : OffsetTracker} {total m : Nat} :
    ∀ {fuel : Nat} {acc : List Nat} {offset : Nat}, acc.length ≤ m →
      (seqLoop t total m fuel acc offset).length ≤ m := by
  intro fuel
  induction fuel with
  | zero => intro acc offset h; exact h
  | succ f ih =>
    intro acc offset h
    unfold seqLoop
    split
    next hg =>
      have hlt : acc.length < m := by
        simp only [Bool.and_eq_true, decide_eq_true_eq] at hg
        exact hg.1
      split
      next => exact ih (by simpa using Nat.succ_le_of_lt hlt)
      next => exact ih h
    next => exact h

theorem seqLoop_mem {t : OffsetTracker} {total m : Nat} :
    ∀ {fuel : Nat} {acc : List Nat} {offset a : Nat},
      a ∈ seqLoop t total m fuel acc offset → a ∈ acc ∨ canFetch t a = true := by
  intro fuel
  induction fuel with
  | zero => intro acc offset a h; exact Or.inl h
  | succ f ih =>
    intro acc offset a h
    unfold seqLoop at h
    revert h
    split
    next =>
      split
      next hc =>
        intro h
        rcases ih h with h1 | h1
        · rcases List.mem_append.mp h1 with h2 | h2
          · exact Or.inl h2
          · right
            have ha : a = offset := by simpa using h2
            rw [ha]
            exact hc
        · exact Or.inr h1
      next =>
        intro h
        exact ih h
    next =>
      intro h
      exact Or.inl h

theorem markCompleted_failed (t : OffsetTracker) (o n : Nat) :
    (markCompleted t o n).failed = t.failed := rfl

theorem markCompleted_retryCount (t : OffsetTracker) (o n : Nat) :
    (markCompleted t o n).retryCount = t.retryCount := rfl

theorem foldl_markCompleted_failed (l : List Nat) :
    ∀ (t : OffsetTracker), (l.foldl (fun t o => markCompleted t o 0) t).failed = t.failed := by
  induction l with
  | nil => intro t; rfl
  | cons o rest ih => intro t; rw [List.foldl_cons, ih, markCompleted_failed]

theorem foldl_markCompleted_retryCount (l : List Nat) :
    ∀ (t : OffsetTracker),
      (l.foldl (fun t o => markCompleted t o 0) t).retryCount = t.retryCount := by
  induction l with
  | nil => intro t; rfl
  | cons o rest ih => intro t; rw [List.foldl_cons, ih, markCompleted_retryCount]

/-! ## The exactly-one-state invariant -/

theorem trackerDisjoint_markInProgress {t : OffsetTracker} {o : Nat}
    (hd : trackerDisjoint t) (hc : canFetch t o = true) :
    trackerDisjoint (markInProgress t o) := by
  obtain ⟨hcf, hff, hfi⟩ := canFetch_iff.mp hc
  obtain ⟨h1, h2, h3⟩ := hd
  refine ⟨h1, ?_, ?_⟩
  · intro x hx hm
    rcases mem_jsAdd.mp hm with hm1 | rfl
    · exact h2 x hx hm1
    · exact hcf hx
  · intro x hx hm
    rcases mem_jsAdd.mp hm with hm1 | rfl
    · exact h3 x hx hm1
    · exact hff hx

theorem trackerDisjoint_markCompleted {t : OffsetTracker} {o n : Nat}
    (hd : trackerDisjoint t) (hp : o ∈ t.inProgress) :
    trackerDisjoint (markCompleted t o n) := by
  obtain ⟨h1, h2, h3⟩ := hd
  have hof : o ∉ t.failed := fun hf => h3 o hf hp
  have hoc : o ∉ t.completed := fun hc => h2 o hc hp
  refine ⟨?_, ?_, ?_⟩
  · intro x hx hf
    rcases mem_jsAdd.mp hx with hx1 | rfl
    · exact h1 x hx1 hf
    · exact hof hf
  · intro x hx hm
    obtain ⟨hm1, _⟩ := mem_jsDelete.mp hm
    rcases mem_jsAdd.mp hx with hx1 | rfl
    · exact h2 x hx1 hm1
    · exact (mem_jsDelete.mp hm).2 rfl
  · intro x hx hm
    exact h3 x hx (mem_jsDelete.mp hm).1

theorem trackerDisjoint_markFailed {t : OffsetTracker} {o : Nat}
    (hd : trackerDisjoint t) (hp : o ∈ t.inProgress) :
    trackerDisjoint (markFailed t o).1 := by
  obtain ⟨h1, h2, h3⟩ := hd
  have hof : o ∉ t.failed := fun hf => h3 o hf hp
  have hoc : o ∉ t.completed := fun hc => h2 o hc hp
  unfold markFailed
  by_cases hr : MAX_RETRIES ≤ jmGetD t.retryCount o + 1
  · rw [if_pos hr]
    refine ⟨?_, ?_, ?_⟩
    · intro x hx hf
      rcases mem_jsAdd.mp hf with hf1 | rfl
      · exact h1 x hx hf1
      · exact hoc hx
    · intro x hx hm
      exact h2 x hx (mem_jsDelete.mp hm).1
    · intro x hx hm
      rcases mem_jsAdd.mp hx with hx1 | rfl
      · exact h3 x hx1 (mem_jsDelete.mp hm).1
      · exact (mem_jsDelete.mp hm).2 rfl
  · rw [if_neg hr]
    refine ⟨h1, ?_, ?_⟩
    · intro x hx hm
      exact h2 x hx (mem_jsDelete.mp hm).1
    · intro x hx hm
      exact h3 x hx (mem_jsDelete.mp hm).1

theorem trackerDisjoint_of_guardedReachable {t : OffsetTracker}
    (h : GuardedReachable t) : trackerDisjoint t := by
  induction h with
  | init =>
    refine ⟨?_, ?_, ?_⟩ <;> intro o ho <;> simp [emptyTracker] at ho
  | stepInProgress _ hc ih => exact trackerDisjoint_markInProgress ih hc
  | stepCompleted _ hp ih => exact trackerDisjoint_markCompleted ih hp
  | stepFailed _ hp ih => exact trackerDisjoint_markFailed ih hp
  | stepNextOffsets _ ih =>
    rw [getNextOffsets_eq]
    exact ih

theorem markFailed_completed (t : OffsetTracker) (o : Nat) :
    (markFailed t o).1.completed = t.completed := by
  simp only [markFailed]
  split <;> rfl

theorem markFailed_retryCount (t : OffsetTracker) (o : Nat) :
    (markFailed t o).1.retryCount = jmSet t.retryCount o (jmGetD t.retryCount o + 1) := by
  simp only [markFailed]
  split <;> rfl

theorem jmGetD_jmSet_self {m : List (Nat × Nat)} {k v : Nat} :
    jmGetD (jmSet m k v) k = v := by
  unfold jmGetD
  rw [jmGet_jmSet_self]
  rfl

/-! ## Claims -/

/-- C1 (counterexample): under arbitrary operation sequences the
exactly-one-state invariant fails.  Completing offset 0 and then marking
the same offset in progress leaves 0 in both the completed and the
in-progress set, because `markInProgress` only adds to the in-progress set
and never checks or clears the other sets. -/
theorem exactlyOneState_fails_unrestricted :
    ¬ trackerDisjoint (markInProgress (markCompleted emptyTracker 0 5) 0) := by
  intro h
  exact h.2.1 0 (by decide) (by decide)

/-- C1 (amended): after any sequence of `markInProgress`, `markCompleted`,
`markFailed` and `getNextOffsets` operations in which `markInProgress` is
applied only to offsets satisfying `canFetch` and `markCompleted` /
`markFailed` only to offsets currently in progress — the discipline the
driver's fetch loop follows — the completed, failed and in-progress sets
are pairwise disjoint, so every offset is in exactly one of the four
states. -/
theorem exactlyOneState_guarded (t : OffsetTracker) (h : GuardedReachable t) :
    trackerDisjoint t :=
  trackerDisjoint_of_guardedReachable h

theorem exactlyOneState_guarded_witness :
    canFetch emptyTracker 0 = true ∧ trackerDisjoint (markInProgress emptyTracker 0) :=
  ⟨by decide,
   exactlyOneState_guarded _ (GuardedReachable.stepInProgress GuardedReachable.init (by decide))⟩

/-- C2 (counterexample): a fetched payload that fails to parse resolves as
`success = false` with an empty games array, and the driver's per-offset
handler then records the offset as completed with zero games and bumps the
empty-response counter — the retry counter stays at 0.  This contradicts
the claim that a parse failure is treated as a failed fetch attempt and
increments the retry counter. -/
theorem parseFailure_marked_completed :
    0 ∈ (handleRequestResult emptyTracker 0 0 (.resolved false [])).1.completed ∧
    jmGetD (handleRequestResult emptyTracker 0 0 (.resolved false [])).1.retryCount 0 = 0 ∧
    (handleRequestResult emptyTracker 0 0 (.resolved false [])).2.1 = 1 := by
  decide

/-- C2 (amended): the driver's per-offset handler treats any resolved
result that is not a successful non-empty parse — a parse failure as much
as a legitimately empty page — the same way: the offset is marked completed
with zero games and the empty-response counter is incremented, with the
retry counter untouched; only a rejected request (spawn failure, timeout,
missing or unreadable response file) increments the offset's retry
counter. -/
theorem emptyAndParseFailureCompleted_rejectedRetries
    (t : OffsetTracker) (ec o : Nat) (success : Bool) (games : List Game) :
    (¬(success = true ∧ games ≠ []) →
      (handleRequestResult t ec o (.resolved success games)).1 = markCompleted t o 0 ∧
      (handleRequestResult t ec o (.resolved success games)).1.retryCount = t.retryCount ∧
      o ∈ (handleRequestResult t ec o (.resolved success games)).1.completed ∧
      (handleRequestResult t ec o (.resolved success games)).2.1 = ec + 1) ∧
    ((handleRequestResult t ec o .rejected).1.completed = t.completed ∧
      jmGetD (handleRequestResult t ec o .rejected).1.retryCount o = jmGetD t.retryCount o + 1 ∧
      (handleRequestResult t ec o .rejected).2.1 = ec) := by
  constructor
  · intro h
    have hcond : (success && !games.isEmpty) = false := by
      rcases Decidable.not_and_iff_or_not.mp h with h1 | h1
      · simp [Bool.eq_false_iff.mpr h1]
      · have : games = [] := not_not.mp h1
        simp [this]
    have hred : handleRequestResult t ec o (.resolved success games) =
        (markCompleted t o 0, ec + 1, ⟨o, [], true⟩) := by
      simp [handleRequestResult, hcond, SKIP_MISSING_GAMES]
    rw [hred]
    exact ⟨rfl, markCompleted_retryCount t o 0, mem_jsAdd.mpr (Or.inr rfl), rfl⟩
  · refine ⟨markFailed_completed t o, ?_, rfl⟩
    show jmGetD (markFailed t o).1.retryCount o = jmGetD t.retryCount o + 1
    rw [markFailed_retryCount, jmGetD_jmSet_self]

theorem emptyAndParseFailureCompleted_rejectedRetries_witness :
    (handleRequestResult emptyTracker 0 7 (.resolved false [])).1 =
      markCompleted emptyTracker 7 0 ∧
    jmGetD (handleRequestResult emptyTracker 0 7 .rejected).1.retryCount 7 =
      jmGetD emptyTracker.retryCount 7 + 1 := by
  have h := emptyAndParseFailureCompleted_rejectedRetries emptyTracker 0 7 false []
  exact ⟨(h.1 (by simp)).1, h.2.2.1⟩

/-- C3 (code evaluated at the failing input): a tracker whose failed set
holds the retryable offset 39 (5 of 20 retries used).  The claim — and the
source's own comments — say `getNextOffsets` returns such offsets before
new sequential offsets, but the retry loop re-checks `canFetch`, which is
false for every member of the failed set, so 39 is never returned: the
batch is `[0, 78]`. -/
theorem retryableFailed_never_returned :
    (getNextOffsets ⟨[], [39], [], [(39, 5)]⟩ 0 100 3).2 = [0, 78] ∧
    39 ∉ (getNextOffsets ⟨[], [39], [], [(39, 5)]⟩ 0 100 3).2 := by
  decide

/-- C4: for every tracker state and arguments, `getNextOffsets` returns at
most `maxOffsets` offsets, and never returns an offset that was — at call
time — completed, in the failed set with its retry count at or above
`MAX_RETRIES`, or in progress. -/
theorem getNextOffsets_sound (t : OffsetTracker) (cur total m : Nat) :
    (getNextOffsets t cur total m).2.length ≤ m ∧
    ∀ o : Nat, o ∈ (getNextOffsets t cur total m).2 →
      o ∉ t.completed ∧
      ¬(o ∈ t.failed ∧ MAX_RETRIES ≤ jmGetD t.retryCount o) ∧
      o ∉ t.inProgress := by
  rw [getNextOffsets_eq]
  constructor
  · exact seqLoop_length (by simp)
  · intro o ho
    rcases seqLoop_mem ho with h1 | h1
    · simp at h1
    · obtain ⟨hc, hf, hp⟩ := canFetch_iff.mp h1
      exact ⟨hc, fun hx => hf hx.1, hp⟩

theorem getNextOffsets_sound_witness :
    (getNextOffsets emptyTracker 0 100 3).2.length ≤ 3 ∧
    ((0 : Nat) ∉ emptyTracker.completed ∧
      ¬((0 : Nat) ∈ emptyTracker.failed ∧
        MAX_RETRIES ≤ jmGetD emptyTracker.retryCount 0) ∧
      (0 : Nat) ∉ emptyTracker.inProgress) := by
  have h := getNextOffsets_sound emptyTracker 0 100 3
  exact ⟨h.1, h.2 0 (by decide)⟩

/-- C5: whenever the failed set (the set of permanently failed offsets,
which is what `markFailed` puts there) holds at least 3 offsets at the top
of the driver loop, the iteration issues no fetch batch and the run ends:
the decision is either the loop-guard exit or the failure-budget abort,
never `fetchBatch` — even if other offsets remain fetchable. -/
theorem failureBudget_stops_run (t : OffsetTracker) (te tg ec : Nat)
    (h : 3 ≤ t.failed.length) :
    loopDecision t te tg ec = .finished ∨
    loopDecision t te tg ec = .abortTooManyFailures := by
  unfold loopDecision
  by_cases hg : te < tg ∧ ec < MAX_EMPTY_ATTEMPTS
  · rw [if_pos hg, if_pos h]
    right
    rfl
  · rw [if_neg hg]
    left
    rfl

theorem failureBudget_stops_run_witness :
    loopDecision ⟨[], [0, 39, 78], [], []⟩ 0 100 0 = .finished ∨
    loopDecision ⟨[], [0, 39, 78], [], []⟩ 0 100 0 = .abortTooManyFailures :=
  failureBudget_stops_run ⟨[], [0, 39, 78], [], []⟩ 0 100 0 (by decide)

/-- C6: the merge is overwrite-not-append.  Folding two successful
non-empty results for the same offset through the driver's merge step
leaves the offset-to-records map holding exactly the second result's games
for that offset. -/
theorem merge_overwrites (m : List (Nat × List Game)) (o : Nat) (g1 g2 : List Game)
    (h1 : g1 ≠ []) (h2 : g2 ≠ []) (hne : g1 ≠ g2) :
    jmGet (mergeResults m [⟨o, g1, true⟩, ⟨o, g2, true⟩]) o = some g2 := by
  have e1 : g1.isEmpty = false := by
    cases g1
    · exact absurd rfl h1
    · rfl
  have e2 : g2.isEmpty = false := by
    cases g2
    · exact absurd rfl h2
    · rfl
  unfold mergeResults
  simp only [List.foldl_cons, List.foldl_nil, e1, e2, Bool.not_false, Bool.and_self,
    if_true]
  exact jmGet_jmSet_self

theorem merge_overwrites_witness :
    jmGet (mergeResults []
      [⟨0, [sampleGame], true⟩, ⟨0, [sampleGame, sampleGame], true⟩]) 0 =
      some [sampleGame, sampleGame] :=
  merge_overwrites [] 0 [sampleGame] [sampleGame, sampleGame]
    (by decide) (by decide) (by decide)

/-- C7 (counterexample): the checkpoint round trip does not reproduce the
completed offsets.  A run that completed offsets 0 (39 games) and 78
(22 games) while 39 is missing saves a games file of 61 games; on restore
the driver re-chunks that file from zero in pages of 39, marking offsets 0
and 39 completed — offset 78 is no longer in the completed set. -/
theorem checkpoint_roundtrip_completed_fails :
    78 ∈ trackerC7.completed ∧
    78 ∉ (restoreTracker (saveCheckpoint sampleProvider gamesC7 trackerC7) gamesC7).completed := by
  decide

/-- C7 (amended): writing a checkpoint and restoring a fresh tracker from
it, as the driver does at the start of a run, reproduces the failed set
(as a set) and every retry count exactly; the completed offsets, by
contrast, are not read from the checkpoint but reconstructed by re-chunking
the saved games file, and are in general not reproduced. -/
theorem checkpoint_roundtrip_failed_retry (p : ProviderInfo)
    (allGames gamesFile : List Game) (t : OffsetTracker)
    (hnd : (t.retryCount.map Prod.fst).Nodup) :
    (∀ o : Nat,
      o ∈ (restoreTracker (saveCheckpoint p allGames t) gamesFile).failed ↔ o ∈ t.failed) ∧
    (∀ o : Nat,
      jmGet (restoreTracker (saveCheckpoint p allGames t) gamesFile).retryCount o =
        jmGet t.retryCount o) := by
  unfold restoreTracker
  constructor
  · intro o
    rw [foldl_markCompleted_failed]
    show o ∈ (saveCheckpoint p allGames t).failed_offsets.foldl jsAdd [] ↔ o ∈ t.failed
    rw [mem_foldl_jsAdd]
    unfold saveCheckpoint getStatus
    simp only [List.not_mem_nil, false_or]
    exact mem_sortNat
  · intro o
    rw [foldl_markCompleted_retryCount]
    show jmGet ((saveCheckpoint p allGames t).retry_counts.foldl
        (fun m p => jmSet m p.1 p.2) []) o = jmGet t.retryCount o
    have hsortnd : ((sortByKey t.retryCount).map Prod.fst).Nodup :=
      ((sortByKey_perm t.retryCount).symm.map Prod.fst).nodup hnd
    unfold saveCheckpoint
    simp only
    rw [foldl_jmSet_append (by simpa using hsortnd), List.nil_append]
    exact jmGet_perm (sortByKey_perm t.retryCount) hsortnd

theorem checkpoint_roundtrip_failed_retry_witness :
    ((39 : Nat) ∈
        (restoreTracker (saveCheckpoint sampleProvider [] ⟨[0], [39], [], [(39, 5)]⟩)
          []).failed ↔
      (39 : Nat) ∈ ([39] : List Nat)) ∧
    jmGet (restoreTracker (saveCheckpoint sampleProvider [] ⟨[0], [39], [], [(39, 5)]⟩)
        []).retryCount 39 =
      jmGet [(39, 5)] 39 := by
  have h := checkpoint_roundtrip_failed_retry sampleProvider [] []
    ⟨[0], [39], [], [(39, 5)]⟩ (by decide)
  exact ⟨h.1 39, h.2 39⟩

/-- C8: parsing the exact input "error" yields an unsuccessful result —
`success = false` with an empty games array — not a successful result with
zero records, whichever extraction routines sit downstream.  (The input is
caught by the invalid-response guard: it equals the literal "error" and its
trimmed length, 5 characters, is below 50.) -/
theorem parse_error_string_fails (ps : DownstreamParsers) :
    (parseStakeResponse ps "error").success = false ∧
    (parseStakeResponse ps "error").games = [] := by
  have h : parseStakeResponse ps "error" = invalidResultLiteral := rfl
  rw [h]
  exact ⟨rfl, rfl⟩

/-- C9: with `totalGames = 100`, page size 39 and a fresh tracker, the
first batch request plan is the offsets `[0, 39, 78]` with per-offset
limits `[39, 39, 22]`. -/
theorem firstBatch_plan_100 :
    (getNextOffsets emptyTracker 0 100 3).2 = [0, 39, 78] ∧
    (getNextOffsets emptyTracker 0 100 3).2.map (requestLimit 100) = [39, 39, 22] := by
  decide

/-- C10: every input whose trimmed length is below 50 characters is
rejected by `parseStakeResponse` with `success = false` and an empty games
array, regardless of its content and of whatever the downstream extraction
routines would have returned. -/
theorem short_input_rejected (ps : DownstreamParsers) (s : String)
    (h : (jsTrim s).length < 50) :
    (parseStakeResponse ps s).success = false ∧
    (parseStakeResponse ps s).games = [] := by
  have hr : parseStakeResponse ps s = invalidResultLiteral := by
    simp only [parseStakeResponse]
    rw [if_pos (Or.inr h)]
  rw [hr]
  exact ⟨rfl, rfl⟩

theorem short_input_rejected_witness :
    (jsTrim "abc").length < 50 ∧
    (parseStakeResponse noopDownstream "abc").success = false :=
  ⟨by decide, (short_input_rejected noopDownstream "abc" (by decide)).1⟩
